import Mathlib

/-!
Shallow embedding of the anythingllm-document-sync reconciliation engine:
`src/anythingllm_sync/ingest_anythingllm_docs.py`,
`src/anythingllm_loader/database.py` and
`src/anythingllm_loader/anythingllm_api.py`.

Strings are modeled as `List Char`.  Timestamps are modeled at second
granularity (`Nat`): the source formats every compared or stored timestamp
with `strftime` at second resolution (`%Y%m%d%H%M%S` when comparing in
`upload_new_documents`, `%Y-%m-%d %H:%M:%S` when storing in the database),
and integer comparison of those fixed-width digit renderings agrees with
comparison of the second-truncated datetimes.  Remote HTTP calls are
abstracted as oracles giving each call's outcome; the lists of calls a
phase performs are returned explicitly so that properties about which
calls occur can be stated.
-/

abbrev Str := List Char

/-- `firstMatches pat s` holds when `pat` is an initial segment of `s`. -/
def firstMatches : Str → Str → Bool
  | [], _ => true
  | _ :: _, [] => false
  | p :: ps, c :: cs => p == c && firstMatches ps cs

/-- Python `needle in hay` on strings: contiguous-substring test. -/
def containsSub (needle : Str) : Str → Bool
  | [] => needle.isEmpty
  | c :: t => firstMatches needle (c :: t) || containsSub needle t

/-- Python `s.split(sep)` for a single-character separator: splits at every
occurrence of `sep`, keeping empty pieces. -/
def pySplit (sep : Char) : Str → List Str
  | [] => [[]]
  | c :: t =>
    if c = sep then [] :: pySplit sep t
    else
      match pySplit sep t with
      | [] => [[c]]
      | w :: ws => (c :: w) :: ws

/-- Python regex `\w` (ASCII reading): letters, digits, underscore. -/
def isWordChar (c : Char) : Bool := c.isAlphanum || c = '_'

/-- `AnythingLLMDocument` from `src/anythingllm_loader/database.py`: one row
of the `documents` table, i.e. one TrackedDocument of the Ledger. -/
structure AnythingLLMDocument where
  local_file_path : Str
  upload_timestamp : Nat
  anythingllm_document_location : Str
  content : Str
deriving DecidableEq, Repr

/-- The part of an `upload_document` response the engine uses: the
`location` field and the whole payload (stored verbatim as `content`). -/
structure UploadResp where
  location : Str
  payload : Str
deriving DecidableEq, Repr

/-- `AnythingLLMConfig` from `src/anythingllm_loader/config.py`. -/
structure AnythingLLMConfig where
  api_key : Str
  file_paths : List Str
  directory_excludes : List Str
  file_excludes : List Str
  workspace_slug : Str

/-- One filesystem entry seen by `rglob` in `fetch_local_documents`:
`path` models `str(file)` (equal to `str(file.absolute())` since the walked
roots are resolved), `name` models `file.name`, `ext` models
`file.suffix.lstrip('.')`, `isFile` models `file.is_file()`. -/
structure ScannedFile where
  path : Str
  name : Str
  ext : Str
  isFile : Bool

/-- `AnythingLLM.supported_file_types` from
`src/anythingllm_loader/anythingllm_api.py` (verbatim, duplicates kept). -/
def supported_file_types : List Str :=
  ["txt", "md", "org", "adoc", "rst", "html", "docx", "odt", "odp", "pdf", "mbox",
   "epub", "js", "j2", "py", "java", "sh", "json", "yaml", "yml", "sql", "toml",
   "csv", "tsv", "ini", "conf", "log", "cfg", "properties", "xml", "jsonl",
   "csv", "tsv", "ini", "conf", "log", "cfg", "properties", "xml", "jsonl"].map String.data

/-- The per-file exclude test of `fetch_local_documents`
(`src/anythingllm_sync/ingest_anythingllm_docs.py`, lines 54-62): a file is
excluded when some file-exclude is a substring of the file name, or some
directory-exclude is a substring of the full path string. -/
def excludedByConfig (config : AnythingLLMConfig) (f : ScannedFile) : Bool :=
  config.file_excludes.any (fun excl => containsSub excl f.name) ||
  config.directory_excludes.any (fun excl => containsSub excl f.path)

/-- `fetch_local_documents` (lines 43-86): the filesystem walk is abstracted
as the list `files` of entries produced by `rglob` over the configured
roots; for each entry the exclusion test runs first, then the extension
allow-list test, then the regular-file test. -/
def fetch_local_documents (config : AnythingLLMConfig) (files : List ScannedFile) : List Str :=
  files.filterMap (fun f =>
    if excludedByConfig config f then none
    else if !(decide (f.ext ∈ supported_file_types)) then none
    else if f.isFile then some f.path else none)

/-- The inner loop of `upload_new_documents` (lines 95-102) computing the
`document_loaded` flag for one desired path `p` with modification time `m`:
scan the tracked documents in order; on a record with matching path,
continue scanning when the file is strictly newer, otherwise mark loaded
and break. -/
def document_loaded (loaded : List AnythingLLMDocument) (p : Str) (m : Nat) : Bool :=
  match loaded with
  | [] => false
  | d :: rest =>
    if d.local_file_path = p then
      if m > d.upload_timestamp then document_loaded rest p m
      else true
    else document_loaded rest p m

/-- The loop of `upload_new_documents` (lines 91-115): for each desired path
not `document_loaded`, call `upload_document` (recorded in the returned call
list) and, on a non-`None` response, `add_document` a new row — a plain SQL
INSERT, which appends to the table.  `upload` is the remote-call oracle,
`mtime` gives each file's current modification time, `loaded` is the
in-memory `loaded_documents` snapshot (fixed for the whole phase), and the
second list argument is the database contents being mutated. -/
def upload_go (upload : Str → Option UploadResp) (mtime : Str → Nat)
    (loaded : List AnythingLLMDocument) :
    List Str → List AnythingLLMDocument → List AnythingLLMDocument × List Str
  | [], db => (db, [])
  | p :: rest, db =>
    if document_loaded loaded p (mtime p) then
      upload_go upload mtime loaded rest db
    else
      let db' :=
        match upload p with
        | some r => db ++ [⟨p, mtime p, r.location, r.payload⟩]
        | none => db
      let pr := upload_go upload mtime loaded rest db'
      (pr.1, p :: pr.2)

/-- `upload_new_documents`: in `main` the database holds exactly the rows
previously read into `loaded_documents`, so the phase starts from that list
as database contents.  Returns the final database contents and the upload
calls in order. -/
def upload_new_documents (upload : Str → Option UploadResp) (mtime : Str → Nat)
    (loaded : List AnythingLLMDocument) (local_documents : List Str) :
    List AnythingLLMDocument × List Str :=
  upload_go upload mtime loaded local_documents loaded

/-- `embed_new_documents` (lines 118-128): the list `to_embed` of embed
calls, one for each tracked document whose location is not embedded. -/
def embed_new_documents (loaded : List AnythingLLMDocument) (embedded : List Str) : List Str :=
  (loaded.filter (fun d => !(decide (d.anythingllm_document_location ∈ embedded)))).map
    (fun d => d.anythingllm_document_location)

/-- `remove_embedded_documents` (lines 131-147): the list `to_unembed` of
unembed calls — every embedded location with no tracked document
(`next(...)` returning `None`, modeled by `List.find?`), or whose first
matching tracked document has an undesired `local_file_path`. -/
def remove_embedded_documents (local_documents : List Str)
    (loaded : List AnythingLLMDocument) (embedded : List Str) : List Str :=
  embedded.filter (fun emb_loc =>
    match loaded.find? (fun d => decide (d.anythingllm_document_location = emb_loc)) with
    | none => true
    | some d => !(decide (d.local_file_path ∈ local_documents)))

/-- `DocumentDatabase.remove_document` from
`src/anythingllm_loader/database.py` (lines 74-83):
`DELETE FROM documents WHERE local_file_path = ?`. -/
def remove_document (db : List AnythingLLMDocument) (local_document_path : Str) :
    List AnythingLLMDocument :=
  db.filter (fun d => !(decide (d.local_file_path = local_document_path)))

/-- The unload loop of `remove_loaded_documents` (lines 158-161): for each
location, call `unload_document`; when it returns `True`, call
`database.remove_document` with that same (remote) location. -/
def unload_go (unloadOk : Str → Bool) :
    List Str → List AnythingLLMDocument → List AnythingLLMDocument × List Str
  | [], db => (db, [])
  | loc :: rest, db =>
    let db' := if unloadOk loc then remove_document db loc else db
    let pr := unload_go unloadOk rest db'
    (pr.1, loc :: pr.2)

/-- `remove_loaded_documents` (lines 150-161): unload every tracked document
whose `local_file_path` is not desired.  Returns the final database contents
and the unload calls in order. -/
def remove_loaded_documents (unloadOk : Str → Bool) (local_documents : List Str)
    (loaded : List AnythingLLMDocument) (db : List AnythingLLMDocument) :
    List AnythingLLMDocument × List Str :=
  unload_go unloadOk
    ((loaded.filter (fun d => !(decide (d.local_file_path ∈ local_documents)))).map
      (fun d => d.anythingllm_document_location)) db

/-- Outcomes of the remote calls of one run: the upload response (or `none`
for a failure/skip), and the success of each embed, unembed and unload. -/
structure RemoteOracle where
  uploadResp : Str → Option UploadResp
  embedOk : Str → Bool
  unembedOk : Str → Bool
  unloadOk : Str → Bool

/-- A successful embed adds the location to the workspace's embedded set
(the engine re-reads it de-duplicated). -/
def addEmbed (st : List Str) (l : Str) : List Str :=
  if decide (l ∈ st) then st else st ++ [l]

def applyEmbeds (ok : Str → Bool) (st : List Str) (calls : List Str) : List Str :=
  calls.foldl (fun s l => if ok l then addEmbed s l else s) st

/-- A successful unembed removes the location from the embedded set. -/
def applyUnembeds (ok : Str → Bool) (st : List Str) (calls : List Str) : List Str :=
  calls.foldl (fun s l => if ok l then s.filter (fun x => !(decide (x = l))) else s) st

/-- Final state and remote calls of one normal-mode run. -/
structure RunResult where
  db : List AnythingLLMDocument
  embedded : List Str
  uploadCalls : List Str
  embedCalls : List Str
  unembedCalls : List Str
  unloadCalls : List Str
deriving DecidableEq, Repr

/-- The normal-sync path of `main` (lines 387-408): scan (given here as
`local_documents`), read `loaded_documents`, phase 1, refresh `embedded` and
`loaded`, phase 2, refresh `embedded`, phase 3, phase 4.  `db0` and
`embedded0` are the database contents and workspace embeddings at the start
of the run; with no remote-side drift, each `fetch_embedded_workspace_documents`
returns the modeled embedded state. -/
def sync_run (o : RemoteOracle) (mtime : Str → Nat) (local_documents : List Str)
    (db0 : List AnythingLLMDocument) (embedded0 : List Str) : RunResult :=
  let pr1 := upload_new_documents o.uploadResp mtime db0 local_documents
  let db1 := pr1.1
  let loaded1 := db1
  let toEmbed := embed_new_documents loaded1 embedded0
  let embedded2 := applyEmbeds o.embedOk embedded0 toEmbed
  let toUnembed := remove_embedded_documents local_documents loaded1 embedded2
  let embedded4 := applyUnembeds o.unembedOk embedded2 toUnembed
  let pr4 := remove_loaded_documents o.unloadOk local_documents loaded1 db1
  ⟨pr4.1, embedded4, pr1.2, toEmbed, toUnembed, pr4.2⟩

/-- Observable outcome of purge mode: the payload of the bulk
`update-embeddings` deletes request (if made), the payload of the bulk
`/system/remove-documents` request (if made), and whether the local
tracking database file was deleted at the end. -/
structure PurgeResult where
  unembedRequest : Option (List Str)
  rawDeleteRequest : Option (List Str)
  dbCleared : Bool
deriving DecidableEq, Repr

/-- The purge-raw block and the final DB clear of `main` (lines 357-385):
when `--purge-raw` is set and the database is non-empty, one bulk deletion
request is sent whose names are the tracked documents' locations; its
outcome `deleteOk` is only logged — afterwards the database file is deleted
unconditionally. -/
def purge_raw_step (purge_raw : Bool) (db : List AnythingLLMDocument)
    (_deleteOk : Bool) (ereq : Option (List Str)) : PurgeResult :=
  if purge_raw then
    if db.isEmpty then ⟨ereq, none, true⟩
    else ⟨ereq, some (db.map (fun d => d.anythingllm_document_location)), true⟩
  else ⟨ereq, none, true⟩

/-- Purge mode of `main` (lines 329-385): with a non-empty embedded set, one
bulk unembed request is sent; on its failure the function returns at once
(no raw deletion, no DB clear).  Otherwise the purge-raw step runs and the
database file is deleted. -/
def purge_run (purge_raw : Bool) (embedded : List Str) (db : List AnythingLLMDocument)
    (unembedOk deleteOk : Bool) : PurgeResult :=
  if embedded.isEmpty then
    purge_raw_step purge_raw db deleteOk none
  else if unembedOk then
    purge_raw_step purge_raw db deleteOk (some embedded)
  else
    ⟨some embedded, none, false⟩

/-- `re.search(r".*\.xlsx-\w+\/sheet.*", s)` tested at one position: the
string starts with `.xlsx-`, then one or more word characters, then
`/sheet`.  (Backtracking cannot help `\w+`: `/` is not a word character, so
the maximal word run must be followed by `/sheet`.) -/
def sheetPatternAt (s : Str) : Bool :=
  firstMatches (".xlsx-".data) s &&
  (!((s.drop 6).takeWhile isWordChar).isEmpty &&
    firstMatches ("/sheet".data) ((s.drop 6).dropWhile isWordChar))

/-- `re.search` of the spreadsheet pattern: a match at some position. -/
def sheetSearch : Str → Bool
  | [] => false
  | c :: t => sheetPatternAt (c :: t) || sheetSearch t

/-- The location-rewrite step of `AnythingLLM.unload_document`
(`src/anythingllm_loader/anythingllm_api.py`, lines 150-183): when the
regex `.*\.xlsx-\w+\/sheet.*` matches, the deletion request is issued
against `document_to_unload.split('/')[-2]`; otherwise against the location
unchanged. -/
def unload_document_target (document_to_unload : Str) : Str :=
  if sheetSearch document_to_unload then
    (((pySplit '/' document_to_unload).reverse).drop 1).headD []
  else document_to_unload

/-- The spec's spreadsheet per-sheet artifact pattern
`<name>.xlsx-<id>/sheet-<n>.json`, read as liberally as possible: `name`,
`id` and `n` arbitrary strings. -/
def isPerSheetArtifact (s : Str) : Prop :=
  ∃ name id n : Str,
    s = name ++ (".xlsx-".data) ++ id ++ ("/sheet-".data) ++ n ++ (".json".data)

/-- Rows appended by the phase-1 loop, as a function of the desired list
alone (the appended rows do not depend on the database contents). -/
def uploadDelta (upload : Str → Option UploadResp) (mtime : Str → Nat)
    (loaded : List AnythingLLMDocument) : List Str → List AnythingLLMDocument
  | [] => []
  | p :: rest =>
    if document_loaded loaded p (mtime p) then uploadDelta upload mtime loaded rest
    else
      match upload p with
      | some r => ⟨p, mtime p, r.location, r.payload⟩ :: uploadDelta upload mtime loaded rest
      | none => uploadDelta upload mtime loaded rest

/-- Upload calls made by the phase-1 loop, as a function of the desired
list alone. -/
def uploadCallList (mtime : Str → Nat) (loaded : List AnythingLLMDocument) :
    List Str → List Str
  | [] => []
  | p :: rest =>
    if document_loaded loaded p (mtime p) then uploadCallList mtime loaded rest
    else p :: uploadCallList mtime loaded rest

/-- `endsIn suffix s` holds when `suffix` is a final segment of `s`. -/
def endsIn (suffix s : Str) : Bool := firstMatches suffix.reverse s.reverse

/-- The `document_loaded` flag is set exactly when some tracked record has
the desired path and a synced-at timestamp at least the file's current
modification time (at second granularity). -/
theorem document_loaded_iff (loaded : List AnythingLLMDocument) (p : Str) (m : Nat) :
    document_loaded loaded p m = true ↔
      ∃ d ∈ loaded, d.local_file_path = p ∧ m ≤ d.upload_timestamp := by
  induction loaded with
  | nil => simp [document_loaded]
  | cons d rest ih =>
    simp only [document_loaded, List.exists_mem_cons_iff]
    by_cases h1 : d.local_file_path = p
    · by_cases h2 : m > d.upload_timestamp
      · rw [if_pos h1, if_pos h2, ih]
        constructor
        · intro h
          exact Or.inr h
        · rintro (⟨hp, hm⟩ | h)
          · omega
          · exact h
      · rw [if_pos h1, if_neg h2]
        constructor
        · intro _
          exact Or.inl ⟨h1, by omega⟩
        · intro _
          rfl
    · rw [if_neg h1, ih]
      constructor
      · intro h
        exact Or.inr h
      · rintro (⟨hp, _⟩ | h)
        · exact absurd hp h1
        · exact h

/-- The phase-1 loop appends `uploadDelta` to the database and performs the
`uploadCallList` calls, independently of the starting database contents. -/
theorem upload_go_spec (upload : Str → Option UploadResp) (mtime : Str → Nat)
    (loaded : List AnythingLLMDocument) (ds : List Str) :
    ∀ db, upload_go upload mtime loaded ds db
      = (db ++ uploadDelta upload mtime loaded ds, uploadCallList mtime loaded ds) := by
  induction ds with
  | nil => intro db; simp [upload_go, uploadDelta, uploadCallList]
  | cons p rest ih =>
    intro db
    cases h : document_loaded loaded p (mtime p) with
    | true => simp [upload_go, uploadDelta, uploadCallList, h, ih]
    | false =>
      cases hr : upload p with
      | some r => simp [upload_go, uploadDelta, uploadCallList, h, hr, ih]
      | none => simp [upload_go, uploadDelta, uploadCallList, h, hr, ih]

/-- How often phase 1 uploads a given path: never when a sufficiently
recent record exists, once per occurrence in the desired list otherwise. -/
theorem uploadCallList_count (mtime : Str → Nat) (loaded : List AnythingLLMDocument)
    (p : Str) (ds : List Str) :
    (uploadCallList mtime loaded ds).count p
      = if document_loaded loaded p (mtime p) then 0 else ds.count p := by
  induction ds with
  | nil => simp [uploadCallList]
  | cons q rest ih =>
    by_cases hq : q = p
    · subst hq
      cases h : document_loaded loaded q (mtime q) with
      | true => simp [uploadCallList, h, ih, List.count_cons]
      | false => simp [uploadCallList, h, ih, List.count_cons]
    · cases h : document_loaded loaded q (mtime q) with
      | true => simp [uploadCallList, h, ih, List.count_cons, hq]
      | false => simp [uploadCallList, h, ih, List.count_cons, hq]

/-- A path receives an upload call exactly when it is desired and not
`document_loaded`. -/
theorem uploadCallList_mem (mtime : Str → Nat) (loaded : List AnythingLLMDocument)
    (p : Str) (ds : List Str) :
    p ∈ uploadCallList mtime loaded ds ↔
      p ∈ ds ∧ document_loaded loaded p (mtime p) = false := by
  induction ds with
  | nil => simp [uploadCallList]
  | cons q rest ih =>
    by_cases hq : q = p
    · subst hq
      cases h : document_loaded loaded q (mtime q) with
      | true => simp [uploadCallList, h, ih]
      | false => simp [uploadCallList, h, ih]
    · cases h : document_loaded loaded q (mtime q) with
      | true => simp [uploadCallList, h, ih, Ne.symm hq]
      | false => simp [uploadCallList, h, ih, Ne.symm hq]

/-- Rows phase 1 appends for a path whose upload succeeds: one copy of the
new row per upload call for it. -/
theorem uploadDelta_filter_some (upload : Str → Option UploadResp) (mtime : Str → Nat)
    (loaded : List AnythingLLMDocument) (p : Str) (r : UploadResp)
    (hr : upload p = some r) (ds : List Str) :
    (uploadDelta upload mtime loaded ds).filter
        (fun d => decide (d.local_file_path = p))
      = List.replicate (if document_loaded loaded p (mtime p) then 0 else ds.count p)
          ⟨p, mtime p, r.location, r.payload⟩ := by
  induction ds with
  | nil => simp [uploadDelta]
  | cons q rest ih =>
    by_cases hq : q = p
    · subst hq
      cases h : document_loaded loaded q (mtime q) with
      | true => simp [uploadDelta, h, ih, List.count_cons]
      | false =>
        simp [uploadDelta, h, hr, ih, List.count_cons, List.replicate_succ]
    · cases h : document_loaded loaded q (mtime q) with
      | true => simp [uploadDelta, h, ih, List.count_cons, hq]
      | false =>
        cases hrq : upload q with
        | some rq => simp [uploadDelta, h, hrq, ih, List.count_cons, hq]
        | none => simp [uploadDelta, h, hrq, ih, List.count_cons, hq]

/-- When the upload of a path fails, phase 1 appends no row for it. -/
theorem uploadDelta_filter_none (upload : Str → Option UploadResp) (mtime : Str → Nat)
    (loaded : List AnythingLLMDocument) (p : Str)
    (hr : upload p = none) (ds : List Str) :
    (uploadDelta upload mtime loaded ds).filter
        (fun d => decide (d.local_file_path = p)) = [] := by
  induction ds with
  | nil => simp [uploadDelta]
  | cons q rest ih =>
    by_cases hq : q = p
    · subst hq
      cases h : document_loaded loaded q (mtime q) with
      | true => simp [uploadDelta, h, ih]
      | false => simp [uploadDelta, h, hr, ih]
    · cases h : document_loaded loaded q (mtime q) with
      | true => simp [uploadDelta, h, ih]
      | false =>
        cases hrq : upload q with
        | some rq => simp [uploadDelta, h, hrq, ih, hq]
        | none => simp [uploadDelta, h, hrq, ih]

/-- A path all of whose tracked records are strictly stale (in particular a
path with no tracked record) is not `document_loaded`. -/
theorem not_document_loaded_of_untracked (loaded : List AnythingLLMDocument) (p : Str) (m : Nat)
    (hun : ∀ d ∈ loaded, d.local_file_path = p → d.upload_timestamp < m) :
    document_loaded loaded p m = false := by
  cases h : document_loaded loaded p m with
  | false => rfl
  | true =>
    rcases (document_loaded_iff loaded p m).mp h with ⟨d, hd, hdp, hdm⟩
    have := hun d hd hdp
    omega

/-- Claim C7: for every file in the desired set with no TrackedDocument for
its local_path, phase 1 makes exactly one upload call for it; on upload
success exactly one TrackedDocument is created, whose synced_at is the
file's scan-time modification time and whose remote_location/metadata come
from the upload response; on upload failure no TrackedDocument is
created. -/
theorem upload_monotonicity (upload : Str → Option UploadResp) (mtime : Str → Nat)
    (loaded : List AnythingLLMDocument) (local_documents : List Str) (p : Str)
    (hcount : local_documents.count p = 1)
    (hun : ∀ d ∈ loaded, d.local_file_path ≠ p) :
    ((upload_new_documents upload mtime loaded local_documents).2.count p = 1)
    ∧ (∀ r, upload p = some r →
        (upload_new_documents upload mtime loaded local_documents).1.filter
            (fun d => decide (d.local_file_path = p))
          = [⟨p, mtime p, r.location, r.payload⟩])
    ∧ (upload p = none →
        (upload_new_documents upload mtime loaded local_documents).1.filter
            (fun d => decide (d.local_file_path = p)) = []) := by
  have hnl : document_loaded loaded p (mtime p) = false :=
    not_document_loaded_of_untracked loaded p (mtime p)
      (fun d hd hdp => absurd hdp (hun d hd))
  have hfl : loaded.filter (fun d => decide (d.local_file_path = p)) = [] :=
    List.filter_eq_nil_iff.mpr (by
      intro d hd
      simp [hun d hd])
  simp only [upload_new_documents, upload_go_spec]
  refine ⟨?_, ?_, ?_⟩
  · rw [uploadCallList_count, hnl]
    simpa using hcount
  · intro r hr
    rw [List.filter_append, hfl, uploadDelta_filter_some upload mtime loaded p r hr, hnl]
    simp [hcount]
  · intro hr
    rw [List.filter_append, hfl, uploadDelta_filter_none upload mtime loaded p hr]
    rfl

/-- Claim C10: in phase 1, for every desired path an upload is attempted if
and only if the tracked collection contains no record with that local_path
whose synced_at (at second granularity) is greater than or equal to the
file's current modification time; in particular, with several records per
local_path a single sufficiently recent one suppresses the upload. -/
theorem upload_attempt_iff (upload : Str → Option UploadResp) (mtime : Str → Nat)
    (loaded : List AnythingLLMDocument) (local_documents : List Str) (p : Str)
    (hp : p ∈ local_documents) :
    p ∈ (upload_new_documents upload mtime loaded local_documents).2 ↔
      ¬ ∃ d ∈ loaded, d.local_file_path = p ∧ mtime p ≤ d.upload_timestamp := by
  simp only [upload_new_documents, upload_go_spec]
  rw [uploadCallList_mem]
  constructor
  · rintro ⟨-, hfalse⟩
    intro hex
    rw [(document_loaded_iff loaded p (mtime p)).mpr hex] at hfalse
    cases hfalse
  · intro h
    refine ⟨hp, ?_⟩
    cases hdl : document_loaded loaded p (mtime p) with
    | false => rfl
    | true => exact absurd ((document_loaded_iff loaded p (mtime p)).mp hdl) h

/-- Claim C1 counterexample: a desired file with exactly one
TrackedDocument (synced_at 5) and current modification time 9.  The upload
call occurs, but afterwards the Ledger holds TWO TrackedDocuments for that
local_path: `add_document` is a plain INSERT, so the existing record is
duplicated, not overwritten, and the at-most-one-record-per-local_path
invariant fails. -/
theorem change_detection_counterexample :
    (upload_new_documents (fun _ => some ⟨("cd/new.json").data, ("m1").data⟩) (fun _ => 9)
        [⟨("/h/a.txt").data, 5, ("cd/old.json").data, ("m0").data⟩] [("/h/a.txt").data]).2
      = [("/h/a.txt").data]
    ∧ (upload_new_documents (fun _ => some ⟨("cd/new.json").data, ("m1").data⟩) (fun _ => 9)
        [⟨("/h/a.txt").data, 5, ("cd/old.json").data, ("m0").data⟩] [("/h/a.txt").data]).1
      = [⟨("/h/a.txt").data, 5, ("cd/old.json").data, ("m0").data⟩,
         ⟨("/h/a.txt").data, 9, ("cd/new.json").data, ("m1").data⟩] := by
  exact ⟨rfl, rfl⟩

/-- Claim C1 amended: for every desired file whose TrackedDocuments all
have synced_at earlier than the file's current modification time (at second
granularity), an upload call occurs; on success a NEW TrackedDocument with
the new synced_at/remote_location/metadata is appended while the existing
record remains, so the Ledger afterwards holds at least two
TrackedDocuments for that local_path — phase 1 appends rather than
overwrites, and the at-most-one-record-per-local_path invariant is not
preserved. -/
theorem change_detection_appends (upload : Str → Option UploadResp) (mtime : Str → Nat)
    (loaded : List AnythingLLMDocument) (local_documents : List Str) (p : Str) (r : UploadResp)
    (hcount : local_documents.count p = 1)
    (htracked : ∃ d ∈ loaded, d.local_file_path = p)
    (hstale : ∀ d ∈ loaded, d.local_file_path = p → d.upload_timestamp < mtime p)
    (hr : upload p = some r) :
    ((upload_new_documents upload mtime loaded local_documents).2.count p = 1)
    ∧ ((upload_new_documents upload mtime loaded local_documents).1.filter
          (fun d => decide (d.local_file_path = p))
        = loaded.filter (fun d => decide (d.local_file_path = p))
          ++ [⟨p, mtime p, r.location, r.payload⟩])
    ∧ 2 ≤ ((upload_new_documents upload mtime loaded local_documents).1.filter
          (fun d => decide (d.local_file_path = p))).length := by
  have hnl : document_loaded loaded p (mtime p) = false :=
    not_document_loaded_of_untracked loaded p (mtime p) hstale
  have hfilter :
      (upload_new_documents upload mtime loaded local_documents).1.filter
          (fun d => decide (d.local_file_path = p))
        = loaded.filter (fun d => decide (d.local_file_path = p))
          ++ [⟨p, mtime p, r.location, r.payload⟩] := by
    simp only [upload_new_documents, upload_go_spec]
    rw [List.filter_append, uploadDelta_filter_some upload mtime loaded p r hr, hnl]
    simp [hcount]
  refine ⟨?_, hfilter, ?_⟩
  · simp only [upload_new_documents, upload_go_spec]
    rw [uploadCallList_count, hnl]
    simpa using hcount
  · rw [hfilter]
    rcases htracked with ⟨d, hd, hdp⟩
    have hdmem : d ∈ loaded.filter (fun d => decide (d.local_file_path = p)) :=
      List.mem_filter.mpr ⟨hd, by simp [hdp]⟩
    have h1 : 1 ≤ (loaded.filter (fun d => decide (d.local_file_path = p))).length :=
      List.length_pos.mpr (List.ne_nil_of_mem hdmem)
    simp [List.length_append]
    omega

/-- Witness for claim C7 at a concrete input: one untracked desired file,
upload succeeding. -/
theorem upload_monotonicity_witness :
    ((upload_new_documents (fun _ => some ⟨("L").data, ("meta").data⟩) (fun _ => 7)
        [] [("/h/new.txt").data]).2.count (("/h/new.txt").data) = 1)
    ∧ (upload_new_documents (fun _ => some ⟨("L").data, ("meta").data⟩) (fun _ => 7)
        [] [("/h/new.txt").data]).1.filter
          (fun d => decide (d.local_file_path = ("/h/new.txt").data))
        = [⟨("/h/new.txt").data, 7, ("L").data, ("meta").data⟩] := by
  have h := upload_monotonicity (fun _ => some ⟨("L").data, ("meta").data⟩) (fun _ => 7)
      [] [("/h/new.txt").data] (("/h/new.txt").data) (by decide) (by simp)
  exact ⟨h.1, h.2.1 ⟨("L").data, ("meta").data⟩ rfl⟩

/-- Witness for claim C10 at a concrete input: a desired path tracked only
under a different local_path. -/
theorem upload_attempt_iff_witness :
    (("/h/new.txt").data ∈ (upload_new_documents (fun _ => none) (fun _ => 7)
        [⟨("/h/old.txt").data, 9, ("cd/o.json").data, ("m").data⟩] [("/h/new.txt").data]).2) ↔
      ¬ ∃ d ∈ [⟨("/h/old.txt").data, 9, ("cd/o.json").data, ("m").data⟩],
          AnythingLLMDocument.local_file_path d = ("/h/new.txt").data
            ∧ 7 ≤ d.upload_timestamp :=
  upload_attempt_iff (fun _ => none) (fun _ => 7)
    [⟨("/h/old.txt").data, 9, ("cd/o.json").data, ("m").data⟩]
    [("/h/new.txt").data] (("/h/new.txt").data) (by decide)

/-- Witness for the amended claim C1 at a concrete input: one upload call
and at least two ledger records for the path afterwards. -/
theorem change_detection_appends_witness :
    ((upload_new_documents (fun _ => some ⟨("cd/new.json").data, ("m1").data⟩) (fun _ => 9)
        [⟨("/h/a.txt").data, 5, ("cd/old.json").data, ("m0").data⟩] [("/h/a.txt").data]).2.count
          (("/h/a.txt").data) = 1)
    ∧ 2 ≤ ((upload_new_documents (fun _ => some ⟨("cd/new.json").data, ("m1").data⟩) (fun _ => 9)
        [⟨("/h/a.txt").data, 5, ("cd/old.json").data, ("m0").data⟩] [("/h/a.txt").data]).1.filter
          (fun d => decide (d.local_file_path = ("/h/a.txt").data))).length := by
  have h := change_detection_appends (fun _ => some ⟨("cd/new.json").data, ("m1").data⟩)
      (fun _ => 9) [⟨("/h/a.txt").data, 5, ("cd/old.json").data, ("m0").data⟩]
      [("/h/a.txt").data] (("/h/a.txt").data) ⟨("cd/new.json").data, ("m1").data⟩
      (by decide)
      ⟨⟨("/h/a.txt").data, 5, ("cd/old.json").data, ("m0").data⟩, by decide, by decide⟩
      (by decide) rfl
  exact ⟨h.1, h.2.2⟩

/-- Claim C2, evaluated at the failing input: one TrackedDocument whose
local_path `/h/a.txt` is not desired and whose remote_location is
`custom-documents/a.txt-1.json`; every unload call succeeds.  The unload
call for the location is made, but the TrackedDocument is NOT removed:
`remove_loaded_documents` passes the remote location to
`database.remove_document`, which deletes rows whose LOCAL path equals that
key, so no row matches and the record survives a successful unload. -/
theorem unload_success_keeps_record :
    (remove_loaded_documents (fun _ => true) []
        [⟨("/h/a.txt").data, 5, ("custom-documents/a.txt-1.json").data, ("m").data⟩]
        [⟨("/h/a.txt").data, 5, ("custom-documents/a.txt-1.json").data, ("m").data⟩]).2
      = [("custom-documents/a.txt-1.json").data]
    ∧ (remove_loaded_documents (fun _ => true) []
        [⟨("/h/a.txt").data, 5, ("custom-documents/a.txt-1.json").data, ("m").data⟩]
        [⟨("/h/a.txt").data, 5, ("custom-documents/a.txt-1.json").data, ("m").data⟩]).1
      = [⟨("/h/a.txt").data, 5, ("custom-documents/a.txt-1.json").data, ("m").data⟩] :=
  ⟨rfl, rfl⟩

/-- Claim C3, evaluated at the failing input: a run whose desired set is
empty and whose Ledger holds one TrackedDocument, every remote call
succeeding.  The run leaves the Ledger and embedded state exactly as they
started (the unload succeeds but the keyed-by-the-wrong-column delete
removes nothing), so the second run — on the first run's final state —
again performs an embed call and an unload call instead of zero calls. -/
theorem second_run_repeats_calls :
    ((sync_run ⟨fun _ => some ⟨("x").data, ("x").data⟩, fun _ => true, fun _ => true,
          fun _ => true⟩ (fun _ => 0) []
        [⟨("/h/a.txt").data, 5, ("cd/a.json").data, ("m").data⟩] []).db
      = [⟨("/h/a.txt").data, 5, ("cd/a.json").data, ("m").data⟩])
    ∧ ((sync_run ⟨fun _ => some ⟨("x").data, ("x").data⟩, fun _ => true, fun _ => true,
          fun _ => true⟩ (fun _ => 0) []
        [⟨("/h/a.txt").data, 5, ("cd/a.json").data, ("m").data⟩] []).embedded = [])
    ∧ ((sync_run ⟨fun _ => some ⟨("x").data, ("x").data⟩, fun _ => true, fun _ => true,
          fun _ => true⟩ (fun _ => 0) []
        [⟨("/h/a.txt").data, 5, ("cd/a.json").data, ("m").data⟩] []).uploadCalls = [])
    ∧ ((sync_run ⟨fun _ => some ⟨("x").data, ("x").data⟩, fun _ => true, fun _ => true,
          fun _ => true⟩ (fun _ => 0) []
        ((sync_run ⟨fun _ => some ⟨("x").data, ("x").data⟩, fun _ => true, fun _ => true,
            fun _ => true⟩ (fun _ => 0) []
          [⟨("/h/a.txt").data, 5, ("cd/a.json").data, ("m").data⟩] []).db)
        ((sync_run ⟨fun _ => some ⟨("x").data, ("x").data⟩, fun _ => true, fun _ => true,
            fun _ => true⟩ (fun _ => 0) []
          [⟨("/h/a.txt").data, 5, ("cd/a.json").data, ("m").data⟩] []).embedded)).embedCalls
      = [("cd/a.json").data])
    ∧ ((sync_run ⟨fun _ => some ⟨("x").data, ("x").data⟩, fun _ => true, fun _ => true,
          fun _ => true⟩ (fun _ => 0) []
        ((sync_run ⟨fun _ => some ⟨("x").data, ("x").data⟩, fun _ => true, fun _ => true,
            fun _ => true⟩ (fun _ => 0) []
          [⟨("/h/a.txt").data, 5, ("cd/a.json").data, ("m").data⟩] []).db)
        ((sync_run ⟨fun _ => some ⟨("x").data, ("x").data⟩, fun _ => true, fun _ => true,
            fun _ => true⟩ (fun _ => 0) []
          [⟨("/h/a.txt").data, 5, ("cd/a.json").data, ("m").data⟩] []).embedded)).unloadCalls
      = [("cd/a.json").data]) :=
  ⟨rfl, rfl, rfl, rfl, rfl⟩

/-- Claim C4 counterexample: purge mode with purge-raw enabled, the bulk
unembed succeeding and the bulk raw-deletion call failing.  The raw
deletion request was made and failed, yet `dbCleared` is `true`: the code
only logs the failure and still deletes the local tracking database. -/
theorem purge_raw_failure_counterexample :
    ((purge_run true [("l1").data] [⟨("/a").data, 1, ("L1").data, ("c").data⟩]
        true false).rawDeleteRequest = some [("L1").data])
    ∧ (purge_run true [("l1").data] [⟨("/a").data, 1, ("L1").data, ("c").data⟩]
        true false).dbCleared = true :=
  ⟨rfl, rfl⟩

/-- Claim C4 amended: in purge mode, a failure of the bulk unembed call
aborts the run at once — no raw-deletion request is made and the Ledger is
kept; but a failure of the purge-raw bulk raw-deletion call does not abort:
the run continues and the local Ledger is discarded anyway. -/
theorem purge_failure_behavior (purge_raw : Bool) (embedded : List Str)
    (db : List AnythingLLMDocument) (deleteOk : Bool)
    (hne : embedded ≠ []) :
    purge_run purge_raw embedded db false deleteOk = ⟨some embedded, none, false⟩
    ∧ (purge_run true embedded db true false).dbCleared = true := by
  have hie : embedded.isEmpty = false := by
    cases embedded with
    | nil => exact absurd rfl hne
    | cons a t => rfl
  constructor
  · simp [purge_run, hie]
  · by_cases hdb : db.isEmpty <;> simp [purge_run, purge_raw_step, hie, hdb]

/-- Witness for the amended claim C4 at a concrete input. -/
theorem purge_failure_behavior_witness :
    purge_run true [("l1").data] [] false true = ⟨some [("l1").data], none, false⟩
    ∧ (purge_run true [("l1").data] [] true false).dbCleared = true :=
  purge_failure_behavior true [("l1").data] [] true (by decide)

/-- Claim C5: whenever purge mode issues a bulk raw-deletion request, its
payload is exactly the remote_location values of the TrackedDocuments in
the local Ledger at the time of the purge — in particular every requested
location is recorded in the Ledger, never an unrestricted listing. -/
theorem purge_raw_scope (purge_raw : Bool) (embedded : List Str)
    (db : List AnythingLLMDocument) (unembedOk deleteOk : Bool) (ns : List Str)
    (h : (purge_run purge_raw embedded db unembedOk deleteOk).rawDeleteRequest = some ns) :
    ns = db.map (fun d => d.anythingllm_document_location)
    ∧ ∀ loc ∈ ns, ∃ d ∈ db, d.anythingllm_document_location = loc := by
  have hns : ns = db.map (fun d => d.anythingllm_document_location) := by
    by_cases h1 : embedded.isEmpty <;> by_cases h2 : unembedOk
      <;> by_cases h3 : purge_raw <;> by_cases h4 : db.isEmpty
      <;> simp [purge_run, purge_raw_step, h1, h2, h3, h4] at h
      <;> exact h.symm
  refine ⟨hns, ?_⟩
  intro loc hloc
  rw [hns] at hloc
  rcases List.mem_map.mp hloc with ⟨d, hd, hde⟩
  exact ⟨d, hd, hde⟩

/-- Witness for claim C5 at a concrete input: one tracked document, whose
location is exactly the request payload. -/
theorem purge_raw_scope_witness :
    [("L1").data] = ([⟨("/a").data, 1, ("L1").data, ("c").data⟩] :
        List AnythingLLMDocument).map (fun d => d.anythingllm_document_location)
    ∧ ∀ loc ∈ [("L1").data],
        ∃ d ∈ [(⟨("/a").data, 1, ("L1").data, ("c").data⟩ : AnythingLLMDocument)],
          d.anythingllm_document_location = loc :=
  purge_raw_scope true [] [⟨("/a").data, 1, ("L1").data, ("c").data⟩] true true
    [("L1").data] rfl

/-- A member of a duplicate-free list is counted exactly once. -/
theorem count_one_of_nodup_mem (l : List Str) (e : Str) (hnd : l.Nodup) (he : e ∈ l) :
    l.count e = 1 := by
  induction l with
  | nil => cases he
  | cons a t ih =>
    rcases List.mem_cons.mp he with rfl | he'
    · have hna : e ∉ t := (List.nodup_cons.mp hnd).1
      have ht : t.count e = 0 := List.count_eq_zero.mpr hna
      rw [List.count_cons_self, ht]
    · have hne : a ≠ e := by
        rintro rfl
        exact (List.nodup_cons.mp hnd).1 he'
      rw [List.count_cons_of_ne (Ne.symm hne), ih (List.nodup_cons.mp hnd).2 he']

/-- Claim C8: in phase 3, an embedded member receives exactly one unembed
call when no TrackedDocument carries its location (orphan cleanup) or when
the matching TrackedDocument's local_path is no longer desired; it receives
none when the matching TrackedDocument's local_path is still desired.
(`embedded` is de-duplicated by the fetch, and locations are assumed to
identify at most one TrackedDocument, as `remote_location` is the join
key.) -/
theorem unembed_characterization (local_documents : List Str)
    (loaded : List AnythingLLMDocument) (embedded : List Str) (e : Str)
    (hnd : embedded.Nodup) (he : e ∈ embedded)
    (huniq : ∀ d₁ ∈ loaded, ∀ d₂ ∈ loaded,
      d₁.anythingllm_document_location = e → d₂.anythingllm_document_location = e →
        d₁ = d₂) :
    (((∀ d ∈ loaded, d.anythingllm_document_location ≠ e)
        ∨ (∃ d ∈ loaded, d.anythingllm_document_location = e
            ∧ d.local_file_path ∉ local_documents)) →
      (remove_embedded_documents local_documents loaded embedded).count e = 1)
    ∧ ((∃ d ∈ loaded, d.anythingllm_document_location = e
          ∧ d.local_file_path ∈ local_documents) →
      (remove_embedded_documents local_documents loaded embedded).count e = 0) := by
  set P : Str → Bool := fun emb_loc =>
    match loaded.find? (fun d => decide (d.anythingllm_document_location = emb_loc)) with
    | none => true
    | some d => !(decide (d.local_file_path ∈ local_documents)) with hP
  have hcount_of_true : P e = true →
      (remove_embedded_documents local_documents loaded embedded).count e = 1 := by
    intro hpe
    have hmem : e ∈ embedded.filter P := List.mem_filter.mpr ⟨he, hpe⟩
    exact count_one_of_nodup_mem (embedded.filter P) e (hnd.filter P) hmem
  have hcount_of_false : P e = false →
      (remove_embedded_documents local_documents loaded embedded).count e = 0 := by
    intro hpe
    apply List.count_eq_zero.mpr
    intro hmem
    have h2 : P e = true := (List.mem_filter.mp hmem).2
    rw [hpe] at h2
    cases h2
  have hfind_some : ∀ d ∈ loaded, d.anythingllm_document_location = e →
      loaded.find? (fun d => decide (d.anythingllm_document_location = e)) = some d := by
    intro d hd hde
    have hsome : (loaded.find?
        (fun d => decide (d.anythingllm_document_location = e))).isSome :=
      List.find?_isSome.mpr ⟨d, hd, by simp [hde]⟩
    rcases Option.isSome_iff_exists.mp hsome with ⟨d₀, hd₀⟩
    have hd₀e : d₀.anythingllm_document_location = e := by
      have := List.find?_some hd₀
      simpa using this
    have hd₀mem : d₀ ∈ loaded := List.mem_of_find?_eq_some hd₀
    rw [hd₀, huniq d₀ hd₀mem d hd hd₀e hde]
  constructor
  · rintro (hno | ⟨d, hd, hde, hnotdesired⟩)
    · apply hcount_of_true
      have hfind : loaded.find?
          (fun d => decide (d.anythingllm_document_location = e)) = none :=
        List.find?_eq_none.mpr (by
          intro d hd
          simp [hno d hd])
      simp [hP, hfind]
    · apply hcount_of_true
      have hfind := hfind_some d hd hde
      simp [hP, hfind, hnotdesired]
  · rintro ⟨d, hd, hde, hdesired⟩
    apply hcount_of_false
    have hfind := hfind_some d hd hde
    simp [hP, hfind, hdesired]

/-- Witness for claim C8 at a concrete input: an orphan embedded location
receives exactly one unembed call. -/
theorem unembed_characterization_witness :
    ((remove_embedded_documents [("/h/keep.txt").data]
        [⟨("/h/gone.txt").data, 5, ("cd/gone.json").data, ("m").data⟩]
        [("cd/gone.json").data, ("cd/orphan.json").data]).count
          (("cd/orphan.json").data) = 1) := by
  have h := unembed_characterization [("/h/keep.txt").data]
      [⟨("/h/gone.txt").data, 5, ("cd/gone.json").data, ("m").data⟩]
      [("cd/gone.json").data, ("cd/orphan.json").data] (("cd/orphan.json").data)
      (by decide) (by decide) (by decide)
  exact h.1 (Or.inl (by decide))

/-- Claim C9: a path containing a directory-exclude substring is never in
the desired set the scanner produces, regardless of extension or any other
property of the file. -/
theorem exclude_precedence (config : AnythingLLMConfig) (files : List ScannedFile) (p : Str)
    (h : ∃ excl ∈ config.directory_excludes, containsSub excl p = true) :
    p ∉ fetch_local_documents config files := by
  intro hmem
  rcases h with ⟨excl, hexcl, hsub⟩
  rw [fetch_local_documents, List.mem_filterMap] at hmem
  obtain ⟨f, hf, hsome⟩ := hmem
  by_cases hex : excludedByConfig config f
  · rw [if_pos hex] at hsome
    cases hsome
  · rw [if_neg hex] at hsome
    have hpath : f.path = p := by
      split at hsome
      · cases hsome
      · split at hsome
        · injection hsome
        · cases hsome
    apply hex
    have hdir : config.directory_excludes.any (fun excl => containsSub excl f.path) = true :=
      List.any_eq_true.mpr ⟨excl, hexcl, by rw [hpath]; exact hsub⟩
    simp [excludedByConfig, hdir]

/-- Witness for claim C9 at a concrete input: a `.txt` file under an
excluded `.git` directory is not scanned in. -/
theorem exclude_precedence_witness :
    ("/r/.git/a.txt").data ∉ fetch_local_documents
      ⟨("k").data, [("/r").data], [(".git").data], [], ("w").data⟩
      [⟨("/r/.git/a.txt").data, ("a.txt").data, ("txt").data, true⟩] :=
  exclude_precedence
    ⟨("k").data, [("/r").data], [(".git").data], [], ("w").data⟩
    [⟨("/r/.git/a.txt").data, ("a.txt").data, ("txt").data, true⟩]
    (("/r/.git/a.txt").data)
    ⟨(".git").data, by decide, by decide⟩

/-- A pattern matches at the start of itself followed by anything. -/
theorem firstMatches_append_self (p t : Str) : firstMatches p (p ++ t) = true := by
  induction p with
  | nil => rfl
  | cons c cs ih => simp [firstMatches, ih]

/-- A maximal word-character run followed by a non-word character splits
`takeWhile`/`dropWhile` at exactly that boundary. -/
theorem takeWhile_word_append (id : Str) (x : Char) (t : Str)
    (hid : ∀ c ∈ id, isWordChar c = true) (hx : isWordChar x = false) :
    (id ++ x :: t).takeWhile isWordChar = id
    ∧ (id ++ x :: t).dropWhile isWordChar = x :: t := by
  induction id with
  | nil => simp [List.takeWhile, List.dropWhile, hx]
  | cons c cs ih =>
    have hc : isWordChar c = true := hid c (List.mem_cons_self c cs)
    have ihh := ih (fun d hd => hid d (List.mem_cons_of_mem c hd))
    constructor
    · simp [List.takeWhile, hc, ihh.1]
    · simp [List.dropWhile, hc, ihh.2]

/-- The spreadsheet regex matches at the position of `.xlsx-` when a
nonempty word-character id and `/sheet` follow. -/
theorem sheetPatternAt_canonical (id rest : Str)
    (hid0 : id ≠ []) (hidw : ∀ c ∈ id, isWordChar c = true) :
    sheetPatternAt ((".xlsx-").data ++ (id ++ ('/' :: (("sheet").data ++ rest)))) = true := by
  have hw := takeWhile_word_append id '/' (("sheet").data ++ rest) hidw rfl
  have hie : id.isEmpty = false := by
    cases id with
    | nil => exact absurd rfl hid0
    | cons a t => rfl
  have hdrop : (((".xlsx-").data ++ (id ++ ('/' :: (("sheet").data ++ rest)))).drop 6)
      = id ++ ('/' :: (("sheet").data ++ rest)) := by
    have h6 : ((".xlsx-").data).length = 6 := rfl
    rw [← h6, List.drop_left]
  simp only [sheetPatternAt, hdrop, hw.1, hw.2, hie]
  rw [firstMatches_append_self]
  have h2 : firstMatches (("/sheet").data) ('/' :: (("sheet").data ++ rest)) = true :=
    firstMatches_append_self (("/sheet").data) rest
  rw [h2]
  rfl

/-- A regex search succeeds on any string with a matching suffix
position. -/
theorem sheetSearch_of_suffix (a b : Str) (hb : sheetPatternAt b = true) :
    sheetSearch (a ++ b) = true := by
  induction a with
  | nil =>
    cases b with
    | nil =>
      have hfalse : sheetPatternAt ([] : Str) = false := rfl
      rw [hfalse] at hb
      cases hb
    | cons c t => simp [sheetSearch, hb]
  | cons x a' ih => simp [sheetSearch, ih]

/-- Splitting a separator-free string yields that string alone. -/
theorem pySplit_no_sep (sep : Char) (v : Str) (h : sep ∉ v) : pySplit sep v = [v] := by
  induction v with
  | nil => rfl
  | cons c t ih =>
    have hc : ¬(c = sep) := by
      rintro rfl
      exact h (List.mem_cons_self c t)
    have ht : sep ∉ t := fun hm => h (List.mem_cons_of_mem c hm)
    simp [pySplit, hc, ih ht]

/-- Splitting at the first separator peels off the separator-free
initial segment. -/
theorem pySplit_sep_append (sep : Char) (u v : Str) (h : sep ∉ u) :
    pySplit sep (u ++ sep :: v) = u :: pySplit sep v := by
  induction u with
  | nil => simp [pySplit]
  | cons c u' ih =>
    have hc : ¬(c = sep) := by
      rintro rfl
      exact h (List.mem_cons_self c u')
    have hu : sep ∉ u' := fun hm => h (List.mem_cons_of_mem c hm)
    simp [pySplit, hc, ih hu]

/-- Claim C6 amended: the unload rewrite is governed by the code's looser
regex, not the exact per-sheet shape: a location containing `.xlsx-`
followed by a nonempty word-character id followed by `/sheet` has the
deletion request issued against its second-to-last `/`-separated segment —
which, for canonical per-sheet artifacts
`<name>.xlsx-<id>/sheet-<n>.json` (`name` and `n` slash-free), is the
parent container `<name>.xlsx-<id>`; a location the regex does not match is
used unchanged. -/
theorem unload_rewrite_amended (name id n : Str)
    (hname : '/' ∉ name) (hn : '/' ∉ n)
    (hid0 : id ≠ []) (hidw : ∀ c ∈ id, isWordChar c = true) :
    unload_document_target
        (name ++ (".xlsx-").data ++ id ++ ("/sheet-").data ++ n ++ (".json").data)
      = name ++ (".xlsx-").data ++ id
    ∧ ∀ s : Str, sheetSearch s = false → unload_document_target s = s := by
  refine ⟨?_, ?_⟩
  · have hidslash : '/' ∉ id := by
      intro hmem
      exact absurd (hidw '/' hmem) (by decide)
    have husep : '/' ∉ name ++ (".xlsx-").data ++ id := by
      intro hmem
      rcases List.mem_append.mp hmem with hm | hm
      · rcases List.mem_append.mp hm with hm2 | hm2
        · exact hname hm2
        · exact absurd hm2 (by decide)
      · exact hidslash hm
    have hvsep : '/' ∉ ("sheet-").data ++ n ++ (".json").data := by
      intro hmem
      rcases List.mem_append.mp hmem with hm | hm
      · rcases List.mem_append.mp hm with hm2 | hm2
        · exact absurd hm2 (by decide)
        · exact hn hm2
      · exact absurd hm (by decide)
    have hEq : name ++ (".xlsx-").data ++ id ++ ("/sheet-").data ++ n ++ (".json").data
        = (name ++ (".xlsx-").data ++ id)
          ++ '/' :: (("sheet-").data ++ n ++ (".json").data) := by
      simp [List.append_assoc]
    have hpat : sheetPatternAt ((".xlsx-").data ++ (id ++ ('/' ::
        (("sheet").data ++ ('-' :: (n ++ (".json").data)))))) = true :=
      sheetPatternAt_canonical id ('-' :: (n ++ (".json").data)) hid0 hidw
    have hsearch : sheetSearch (name ++ (".xlsx-").data ++ id ++ ("/sheet-").data
        ++ n ++ (".json").data) = true := by
      have h2 := sheetSearch_of_suffix name _ hpat
      have h3 : name ++ ((".xlsx-").data ++ (id ++ ('/' ::
          (("sheet").data ++ ('-' :: (n ++ (".json").data))))))
          = name ++ (".xlsx-").data ++ id ++ ("/sheet-").data ++ n ++ (".json").data := by
        simp [List.append_assoc]
      rwa [h3] at h2
    unfold unload_document_target
    rw [if_pos hsearch, hEq, pySplit_sep_append '/' _ _ husep, pySplit_no_sep '/' _ hvsep]
    rfl
  · intro s hs
    simp [unload_document_target, hs]

/-- Every per-sheet artifact, under the most liberal reading of the
pattern, ends in `.json`. -/
theorem perSheet_endsJson (s : Str) (h : isPerSheetArtifact s) :
    endsIn ((".json").data) s = true := by
  rcases h with ⟨name, id, n, h⟩
  have h2 : s = (name ++ (".xlsx-").data ++ id ++ ("/sheet-").data ++ n)
      ++ (".json").data := by
    rw [h]
  rw [endsIn, h2, List.reverse_append]
  exact firstMatches_append_self _ _

/-- Claim C6 counterexample: `a.xlsx-b/sheet/c.txt` is not a per-sheet
artifact (it does not even end in `.json`), yet the code's regex matches it
and the deletion request is issued against `sheet` rather than the
unchanged location. -/
theorem unload_rewrite_counterexample :
    ¬ isPerSheetArtifact (("a.xlsx-b/sheet/c.txt").data)
    ∧ unload_document_target (("a.xlsx-b/sheet/c.txt").data)
      ≠ (("a.xlsx-b/sheet/c.txt").data) := by
  constructor
  · intro h
    have hj := perSheet_endsJson _ h
    have hfalse : endsIn ((".json").data) (("a.xlsx-b/sheet/c.txt").data) = false := by
      decide
    rw [hfalse] at hj
    cases hj
  · decide

/-- Witness for the amended claim C6 at the spec's own example:
`foo.xlsx-abc123/sheet-Sheet1.json` is unloaded as `foo.xlsx-abc123`. -/
theorem unload_rewrite_amended_witness :
    unload_document_target
        (("foo").data ++ (".xlsx-").data ++ ("abc123").data ++ ("/sheet-").data
          ++ ("Sheet1").data ++ (".json").data)
      = ("foo").data ++ (".xlsx-").data ++ ("abc123").data :=
  (unload_rewrite_amended (("foo").data) (("abc123").data) (("Sheet1").data)
    (by decide) (by decide) (by decide) (by decide)).1
